import Mathlib

/-!
Verification of the trading-cost estimator core (orderbook aggregation and
trade cost simulation) against its natural-language specification.

Numeric values are modelled over the rationals: every arithmetic operation
the source performs on these inputs (addition, multiplication, division,
min, max, comparison) is exact on the inputs of interest.

The embedded functions follow the source files:
  * src/components/OrderbookVisualization.tsx : processData,
    calculatePercentages, the maxTotal computation, getFirstAskPrice,
    getFirstBidPrice, calculateSpread;
  * src/app/page.tsx : handleSimulation (the local cost model);
  * ParameterControls (handleSubmit) : boundary validation;
  * src/lib/api.ts : the SimulationResponse shape (netCost field).
-/

namespace Trade

/-- One level of the book as the UI components type it: raw price and size
plus the derived running total and percentage fields (overwritten by
aggregation). Mirrors the OrderbookEntry interface of
OrderbookVisualization.tsx. -/
structure OrderbookEntry where
  price : ℚ
  size : ℚ
  total : ℚ
  percentage : ℚ
deriving Repr, DecidableEq

/-- A book snapshot: bids, asks, epoch-millisecond timestamp. -/
structure OrderbookData where
  bids : List OrderbookEntry
  asks : List OrderbookEntry
  timestamp : ℤ
deriving Repr, DecidableEq

/-- The body of processData in OrderbookVisualization.tsx: a map over the
entries carrying the mutable runningTotal accumulator. Each output entry
keeps the input price and size, stores the running total, and resets
percentage to 0 (filled in later by calculatePercentages). -/
def processDataAux (runningTotal : ℚ) : List OrderbookEntry → List OrderbookEntry
  | [] => []
  | entry :: rest =>
    { price := entry.price
      size := entry.size
      total := runningTotal + entry.size
      percentage := 0 } :: processDataAux (runningTotal + entry.size) rest

/-- processData from OrderbookVisualization.tsx: runningTotal starts at 0. -/
def processData (entries : List OrderbookEntry) : List OrderbookEntry :=
  processDataAux 0 entries

/-- The conditional last-total read used for maxTotal:
entries.length > 0 ? entries[entries.length - 1].total : 0. -/
def lastTotal (entries : List OrderbookEntry) : ℚ :=
  match entries.getLast? with
  | some entry => entry.total
  | none => 0

/-- maxTotal from OrderbookVisualization.tsx: Math.max of the final running
totals of the two processed sides. -/
def maxTotalOf (processedBids processedAsks : List OrderbookEntry) : ℚ :=
  max (lastTotal processedBids) (lastTotal processedAsks)

/-- calculatePercentages from OrderbookVisualization.tsx:
percentage = maxTotal > 0 ? (entry.total / maxTotal) * 100 : 0. -/
def calculatePercentages (maxTotal : ℚ) (entries : List OrderbookEntry) :
    List OrderbookEntry :=
  entries.map fun entry =>
    { entry with
      percentage := if 0 < maxTotal then entry.total / maxTotal * 100 else 0 }

/-- The shared normalization constant of one aggregation pass: maxTotal
computed from the two sides after truncation and running-total
computation. -/
def aggregateMaxTotal (data : OrderbookData) (maxDepth : ℕ) : ℚ :=
  maxTotalOf (processData (data.bids.take maxDepth))
    (processData (data.asks.take maxDepth))

/-- The aggregation pass of the useEffect in OrderbookVisualization.tsx:
truncate each side to maxDepth, compute running totals, then percentages
against the shared maxTotal. The timestamp is passed through. -/
def aggregate (data : OrderbookData) (maxDepth : ℕ) : OrderbookData :=
  { bids := calculatePercentages (aggregateMaxTotal data maxDepth)
      (processData (data.bids.take maxDepth))
    asks := calculatePercentages (aggregateMaxTotal data maxDepth)
      (processData (data.asks.take maxDepth))
    timestamp := data.timestamp }

/-- getFirstAskPrice from OrderbookVisualization.tsx: price of the first ask
when the ask side is non-empty, otherwise the fallback 0. -/
def getFirstAskPrice (data : OrderbookData) : ℚ :=
  match data.asks with
  | [] => 0
  | entry :: _ => entry.price

/-- getFirstBidPrice from OrderbookVisualization.tsx: price of the first bid
when the bid side is non-empty, otherwise the fallback 0. -/
def getFirstBidPrice (data : OrderbookData) : ℚ :=
  match data.bids with
  | [] => 0
  | entry :: _ => entry.price

/-- The spread record returned by calculateSpread. -/
structure Spread where
  absolute : ℚ
  percentage : ℚ
deriving Repr, DecidableEq

/-- calculateSpread from OrderbookVisualization.tsx: always computed from
the two first-price reads (which default to 0 on an empty side);
percentage guards only against a zero bid price. -/
def calculateSpread (data : OrderbookData) : Spread :=
  let askPrice := getFirstAskPrice data
  let bidPrice := getFirstBidPrice data
  { absolute := askPrice - bidPrice
    percentage := if bidPrice ≠ 0 then (askPrice - bidPrice) / bidPrice * 100 else 0 }

/-- SimulationParameters as produced by the ParameterControls form:
orderSize, volatility, and the fee tier as a free-form string. -/
structure SimulationParameters where
  orderSize : ℚ
  volatility : ℚ
  feeTier : String
deriving Repr, DecidableEq

/-- The nondeterministic wall-clock and random samples that handleSimulation
reads while computing performance metrics. Two runs may observe different
values here. -/
structure TimingInputs where
  processingTime : ℚ
  uiUpdateTime : ℚ
  startTime : ℚ
  endTime : ℚ
deriving Repr, DecidableEq

/-- Maker/taker proportion record. -/
structure MakerTakerProportion where
  maker : ℚ
  taker : ℚ
deriving Repr, DecidableEq

/-- Performance metrics record. -/
structure PerformanceMetrics where
  processingLatency : ℚ
  uiUpdateLatency : ℚ
  endToEndLatency : ℚ
deriving Repr, DecidableEq

/-- The results object built by handleSimulation in src/app/page.tsx. Note
that it has no netCost field; only the backend SimulationResponse type in
src/lib/api.ts declares one. -/
structure SimulationResults where
  slippage : ℚ
  fees : ℚ
  marketImpact : ℚ
  makerTakerProportion : MakerTakerProportion
  performanceMetrics : PerformanceMetrics
deriving Repr, DecidableEq

/-- The fee-rate lookup of handleSimulation in src/app/page.tsx:
let feeRate = 0.001 (default), overwritten for the recognized tiers
vip, standard and basic; any other string keeps the default. -/
def feeRateOf (feeTier : String) : ℚ :=
  if feeTier = "vip" then 0.0002
  else if feeTier = "standard" then 0.0005
  else if feeTier = "basic" then 0.001
  else 0.001

/-- The cost computation of handleSimulation in src/app/page.tsx. The
numeric cost fields are computed from the parameters alone; the
performance metrics copy the sampled timing inputs. -/
def handleSimulation (parameters : SimulationParameters) (t : TimingInputs) :
    SimulationResults :=
  let slippage := parameters.orderSize * parameters.volatility / 10000
  let feeRate := feeRateOf parameters.feeTier
  let fees := parameters.orderSize * feeRate
  let marketImpact := parameters.orderSize * parameters.volatility / 5000
  let takerProportion := min 0.9 (parameters.volatility / 100)
  let makerProportion := 1 - takerProportion
  { slippage := slippage
    fees := fees
    marketImpact := marketImpact
    makerTakerProportion := { maker := makerProportion, taker := takerProportion }
    performanceMetrics :=
      { processingLatency := t.processingTime
        uiUpdateLatency := t.uiUpdateTime
        endToEndLatency := t.endTime - t.startTime } }

/-- Modelled from the spec: the backend service behind the /simulate route
that populates the netCost field of SimulationResponse is not part of the
repository; only the SimulationResponse type declaration in
src/lib/api.ts names the field. The spec defines
netCost = slippage + fees + marketImpact. -/
def netCost (r : SimulationResults) : ℚ :=
  r.slippage + r.fees + r.marketImpact

/-- The form state read by handleSubmit in ParameterControls: orderSize as
entered then parsed by parseFloat (none models a NaN parse), the slider
volatility, and the selected feeTier string. -/
structure FormState where
  orderSize : Option ℚ
  volatility : ℚ
  feeTier : String
deriving Repr, DecidableEq

/-- Outcome of handleSubmit: either the validated parameters are submitted
or a single error message is set and no simulation runs. -/
inductive SubmitResult where
  | submitted (parameters : SimulationParameters)
  | rejected (message : String)
deriving Repr, DecidableEq

/-- handleSubmit from ParameterControls: validation in source order.
isNaN(parsed) or parsed <= 0 rejects; volatility outside [0,100] rejects;
a falsy (empty) feeTier rejects; anything else is submitted unchanged. -/
def handleSubmit (f : FormState) : SubmitResult :=
  match f.orderSize with
  | none => .rejected "Order size must be a positive number"
  | some parsedOrderSize =>
    if parsedOrderSize ≤ 0 then
      .rejected "Order size must be a positive number"
    else if f.volatility < 0 ∨ 100 < f.volatility then
      .rejected "Volatility must be between 0 and 100"
    else if f.feeTier = "" then
      .rejected "Please select a fee tier"
    else
      .submitted
        { orderSize := parsedOrderSize
          volatility := f.volatility
          feeTier := f.feeTier }

/-- The cumulative-total sequence as the spec words it: each element is the
previous cumulative total (the accumulator, starting at 0) plus the size at
this position. Used to compare aggregation output against a manual
truncate-then-sum computation. -/
def specCumulative (acc : ℚ) : List ℚ → List ℚ
  | [] => []
  | s :: rest => (acc + s) :: specCumulative (acc + s) rest

/-- Fixed sample of timing inputs used to instantiate witness theorems. -/
def sampleTimings : TimingInputs :=
  { processingTime := 7, uiUpdateTime := 4, startTime := 0, endTime := 12 }

/-! Supporting lemmas about the aggregation pipeline. -/

theorem processDataAux_length (r : ℚ) (l : List OrderbookEntry) :
    (processDataAux r l).length = l.length := by
  induction l generalizing r with
  | nil => rfl
  | cons e rest ih => simp [processDataAux, ih]

theorem processDataAux_map_price (r : ℚ) (l : List OrderbookEntry) :
    (processDataAux r l).map OrderbookEntry.price = l.map OrderbookEntry.price := by
  induction l generalizing r with
  | nil => rfl
  | cons e rest ih => simp [processDataAux, ih]

theorem processDataAux_map_size (r : ℚ) (l : List OrderbookEntry) :
    (processDataAux r l).map OrderbookEntry.size = l.map OrderbookEntry.size := by
  induction l generalizing r with
  | nil => rfl
  | cons e rest ih => simp [processDataAux, ih]

theorem processDataAux_map_total (r : ℚ) (l : List OrderbookEntry) :
    (processDataAux r l).map OrderbookEntry.total
      = specCumulative r (l.map OrderbookEntry.size) := by
  induction l generalizing r with
  | nil => rfl
  | cons e rest ih => simp [processDataAux, specCumulative, ih]

/-- processDataAux reads only the price and size of each entry: two lists
that agree on prices and sizes are processed identically. -/
theorem processDataAux_congr (r : ℚ) (l₁ l₂ : List OrderbookEntry)
    (hp : l₁.map OrderbookEntry.price = l₂.map OrderbookEntry.price)
    (hs : l₁.map OrderbookEntry.size = l₂.map OrderbookEntry.size) :
    processDataAux r l₁ = processDataAux r l₂ := by
  induction l₁ generalizing r l₂ with
  | nil =>
    cases l₂ with
    | nil => rfl
    | cons f rest₂ => simp at hp
  | cons e rest₁ ih =>
    cases l₂ with
    | nil => simp at hp
    | cons f rest₂ =>
      simp only [List.map_cons, List.cons.injEq] at hp hs
      simp [processDataAux, hp.1, hs.1, ih _ _ hp.2 hs.2]

theorem processDataAux_total_bounds (r : ℚ) (l : List OrderbookEntry)
    (h : ∀ e ∈ l, 0 ≤ e.size) :
    ∀ e ∈ processDataAux r l,
      r ≤ e.total ∧ e.total ≤ r + (l.map OrderbookEntry.size).sum := by
  induction l generalizing r with
  | nil => intro e he; simp [processDataAux] at he
  | cons f rest ih =>
    intro e he
    have hf : 0 ≤ f.size := h f (by simp)
    have hrest : ∀ x ∈ rest, 0 ≤ x.size := fun x hx => h x (by simp [hx])
    have hsum : 0 ≤ (rest.map OrderbookEntry.size).sum := by
      apply List.sum_nonneg
      intro x hx
      obtain ⟨y, hy, rfl⟩ := List.mem_map.mp hx
      exact hrest y hy
    simp only [processDataAux, List.mem_cons] at he
    rcases he with rfl | he
    · constructor
      · simpa using hf
      · simp only [List.map_cons, List.sum_cons]
        linarith
    · obtain ⟨h₁, h₂⟩ := ih (r + f.size) hrest e he
      constructor
      · linarith
      · simp only [List.map_cons, List.sum_cons]
        linarith

theorem lastTotal_cons_cons (a b : OrderbookEntry) (l : List OrderbookEntry) :
    lastTotal (a :: b :: l) = lastTotal (b :: l) := by
  simp [lastTotal, List.getLast?_cons_cons]

theorem lastTotal_processDataAux (r : ℚ) (l : List OrderbookEntry) (h : l ≠ []) :
    lastTotal (processDataAux r l) = r + (l.map OrderbookEntry.size).sum := by
  induction l generalizing r with
  | nil => exact absurd rfl h
  | cons e rest ih =>
    cases rest with
    | nil => simp [processDataAux, lastTotal]
    | cons f rest₂ =>
      have : processDataAux r (e :: f :: rest₂)
          = { price := e.price, size := e.size, total := r + e.size,
              percentage := 0 } :: processDataAux (r + e.size) (f :: rest₂) := rfl
      rw [this]
      have hne : processDataAux (r + e.size) (f :: rest₂) ≠ [] := by
        intro hcontra
        have := processDataAux_length (r + e.size) (f :: rest₂)
        rw [hcontra] at this
        simp at this
      obtain ⟨g, gs, hgs⟩ : ∃ g gs, processDataAux (r + e.size) (f :: rest₂) = g :: gs := by
        cases hx : processDataAux (r + e.size) (f :: rest₂) with
        | nil => exact absurd hx hne
        | cons g gs => exact ⟨g, gs, rfl⟩
      rw [hgs, lastTotal_cons_cons, ← hgs, ih (r + e.size) (by simp)]
      simp only [List.map_cons, List.sum_cons]
      ring

theorem exists_mem_total_eq_lastTotal (l : List OrderbookEntry) (h : l ≠ []) :
    ∃ e ∈ l, e.total = lastTotal l := by
  refine ⟨l.getLast h, List.getLast_mem h, ?_⟩
  simp [lastTotal, List.getLast?_eq_getLast l h]

theorem specCumulative_length (a : ℚ) (l : List ℚ) :
    (specCumulative a l).length = l.length := by
  induction l generalizing a with
  | nil => rfl
  | cons s rest ih => simp [specCumulative, ih]

theorem specCumulative_getD_succ (a : ℚ) (l : List ℚ) (i : ℕ)
    (h : i + 1 < l.length) :
    (specCumulative a l).getD (i + 1) 0
      = (specCumulative a l).getD i 0 + l.getD (i + 1) 0 := by
  induction l generalizing a i with
  | nil => simp at h
  | cons s rest ih =>
    cases i with
    | zero =>
      cases rest with
      | nil => simp at h
      | cons f rest₂ => simp [specCumulative]
    | succ j =>
      have hj : j + 1 < rest.length := by
        simp only [List.length_cons] at h
        omega
      simpa [specCumulative] using ih (a + s) j hj

theorem specCumulative_last (a : ℚ) (l : List ℚ) (h : l ≠ []) :
    ((specCumulative a l).getLast?).getD 0 = a + l.sum := by
  induction l generalizing a with
  | nil => exact absurd rfl h
  | cons s rest ih =>
    cases rest with
    | nil => simp [specCumulative]
    | cons f rest₂ =>
      have hx : specCumulative a (s :: f :: rest₂)
          = (a + s) :: specCumulative (a + s) (f :: rest₂) := rfl
      obtain ⟨g, gs, hgs⟩ : ∃ g gs, specCumulative (a + s) (f :: rest₂) = g :: gs := by
        cases hy : specCumulative (a + s) (f :: rest₂) with
        | nil =>
          have := specCumulative_length (a + s) (f :: rest₂)
          rw [hy] at this; simp at this
        | cons g gs => exact ⟨g, gs, rfl⟩
      rw [hx, hgs, List.getLast?_cons_cons, ← hgs, ih (a + s) (by simp)]
      simp only [List.sum_cons]
      ring

theorem calculatePercentages_length (m : ℚ) (l : List OrderbookEntry) :
    (calculatePercentages m l).length = l.length := by
  simp [calculatePercentages]

theorem calculatePercentages_map_price (m : ℚ) (l : List OrderbookEntry) :
    (calculatePercentages m l).map OrderbookEntry.price
      = l.map OrderbookEntry.price := by
  simp [calculatePercentages]

theorem calculatePercentages_map_size (m : ℚ) (l : List OrderbookEntry) :
    (calculatePercentages m l).map OrderbookEntry.size
      = l.map OrderbookEntry.size := by
  simp [calculatePercentages]

theorem calculatePercentages_map_total (m : ℚ) (l : List OrderbookEntry) :
    (calculatePercentages m l).map OrderbookEntry.total
      = l.map OrderbookEntry.total := by
  simp [calculatePercentages]

theorem processData_total_le_lastTotal (l : List OrderbookEntry)
    (h : ∀ e ∈ l, 0 ≤ e.size) :
    ∀ e ∈ processData l, 0 ≤ e.total ∧ e.total ≤ lastTotal (processData l) := by
  intro e he
  have hbd := processDataAux_total_bounds 0 l h e he
  have hne : l ≠ [] := by
    intro hl
    subst hl
    simp [processData, processDataAux] at he
  rw [processData, lastTotal_processDataAux 0 l hne]
  constructor
  · linarith [hbd.1]
  · linarith [hbd.2]

theorem percentage_bounds (m x : ℚ) (hx0 : 0 ≤ x) (hxm : x ≤ m) :
    0 ≤ (if 0 < m then x / m * 100 else 0)
    ∧ (if 0 < m then x / m * 100 else 0) ≤ 100 := by
  by_cases h : 0 < m
  · rw [if_pos h]
    have h1 : x / m ≤ 1 := (div_le_one h).mpr hxm
    have h2 : 0 ≤ x / m := div_nonneg hx0 (le_of_lt h)
    constructor <;> nlinarith
  · rw [if_neg h]
    norm_num

/-- All the per-side facts used by the truncation and cumulative-total
claims, stated on one processed side with an arbitrary normalization
constant. -/
theorem processedSide_facts (raw : List OrderbookEntry) (k : ℕ) (m : ℚ)
    (h : ∀ e ∈ raw, 0 ≤ e.size) :
    (calculatePercentages m (processData (raw.take k))).length ≤ k
    ∧ (calculatePercentages m (processData (raw.take k))).map OrderbookEntry.total
        = specCumulative 0 ((raw.take k).map OrderbookEntry.size)
    ∧ (calculatePercentages m (processData (raw.take k))).map OrderbookEntry.size
        = (raw.take k).map OrderbookEntry.size
    ∧ (∀ i : ℕ, i + 1 < (calculatePercentages m (processData (raw.take k))).length →
        ((calculatePercentages m (processData (raw.take k))).map
            OrderbookEntry.total).getD (i + 1) 0
          = ((calculatePercentages m (processData (raw.take k))).map
              OrderbookEntry.total).getD i 0
            + ((raw.take k).map OrderbookEntry.size).getD (i + 1) 0)
    ∧ (∀ i : ℕ, i + 1 < (calculatePercentages m (processData (raw.take k))).length →
        ((calculatePercentages m (processData (raw.take k))).map
            OrderbookEntry.total).getD i 0
          ≤ ((calculatePercentages m (processData (raw.take k))).map
              OrderbookEntry.total).getD (i + 1) 0)
    ∧ (((calculatePercentages m (processData (raw.take k))).map
          OrderbookEntry.total).getLast?).getD 0
        = ((raw.take k).map OrderbookEntry.size).sum := by
  have hlen : (calculatePercentages m (processData (raw.take k))).length
      = (raw.take k).length := by
    rw [calculatePercentages_length, processData, processDataAux_length]
  have htot : (calculatePercentages m (processData (raw.take k))).map
      OrderbookEntry.total = specCumulative 0 ((raw.take k).map OrderbookEntry.size) := by
    rw [calculatePercentages_map_total, processData, processDataAux_map_total]
  have hsz : (calculatePercentages m (processData (raw.take k))).map
      OrderbookEntry.size = (raw.take k).map OrderbookEntry.size := by
    rw [calculatePercentages_map_size, processData, processDataAux_map_size]
  have hrec : ∀ i : ℕ, i + 1 < (calculatePercentages m (processData (raw.take k))).length →
      ((calculatePercentages m (processData (raw.take k))).map
          OrderbookEntry.total).getD (i + 1) 0
        = ((calculatePercentages m (processData (raw.take k))).map
            OrderbookEntry.total).getD i 0
          + ((raw.take k).map OrderbookEntry.size).getD (i + 1) 0 := by
    intro i hi
    rw [htot]
    apply specCumulative_getD_succ
    rw [List.length_map]
    rw [hlen] at hi
    exact hi
  refine ⟨?_, htot, hsz, hrec, ?_, ?_⟩
  · rw [hlen, List.length_take]
    exact min_le_left _ _
  · intro i hi
    rw [hrec i hi]
    have hib : i + 1 < ((raw.take k).map OrderbookEntry.size).length := by
      rw [List.length_map]
      rw [hlen] at hi
      exact hi
    have hs : 0 ≤ ((raw.take k).map OrderbookEntry.size).getD (i + 1) 0 := by
      rw [List.getD_eq_getElem _ _ hib]
      have hmem : ((raw.take k).map OrderbookEntry.size)[i + 1] ∈
          (raw.take k).map OrderbookEntry.size := List.getElem_mem hib
      obtain ⟨e, he, hee⟩ := List.mem_map.mp hmem
      rw [← hee]
      exact h e (List.take_subset _ _ he)
    linarith
  · rw [htot]
    rcases eq_or_ne ((raw.take k).map OrderbookEntry.size) [] with hnil | hnil
    · rw [hnil]
      simp [specCumulative]
    · rw [specCumulative_last 0 _ hnil, zero_add]

/-! Claim theorems. -/

/-- Claim C1: for every parameter set the cost estimate satisfies
netCost = slippage + fees + marketImpact (the netCost composition is
modelled from the spec, since the backend that populates the
SimulationResponse netCost field is not in the repository), and the
concrete example orderSize=1, volatility=50, feeTier=standard yields
slippage=0.005, fees=0.0005, marketImpact=0.01, netCost=0.0155. -/
theorem C1_netCost_additive (p : SimulationParameters) (t : TimingInputs) :
    netCost (handleSimulation p t)
        = (handleSimulation p t).slippage + (handleSimulation p t).fees
          + (handleSimulation p t).marketImpact
    ∧ (handleSimulation ⟨1, 50, "standard"⟩ t).slippage = 0.005
    ∧ (handleSimulation ⟨1, 50, "standard"⟩ t).fees = 0.0005
    ∧ (handleSimulation ⟨1, 50, "standard"⟩ t).marketImpact = 0.01
    ∧ netCost (handleSimulation ⟨1, 50, "standard"⟩ t) = 0.0155 := by
  refine ⟨rfl, ?_, ?_, ?_, ?_⟩ <;>
    simp [handleSimulation, netCost, feeRateOf] <;> norm_num

/-- Claim C4 counterexample: the unrecognized tier string unknown passes
boundary validation (handleSubmit submits it unchanged) and the fee-rate
lookup silently maps it to the default rate 0.001, so an unrecognized tier
is not a validation failure. -/
theorem C4_default_fee_counterexample :
    handleSubmit { orderSize := some 1, volatility := 50, feeTier := "unknown" }
        = .submitted { orderSize := 1, volatility := 50, feeTier := "unknown" }
    ∧ feeRateOf "unknown" = 0.001
    ∧ (handleSimulation ⟨1, 50, "unknown"⟩ sampleTimings).fees = 0.001 := by
  refine ⟨?_, ?_, ?_⟩
  · simp [handleSubmit]; norm_num
  · simp [feeRateOf]
  · simp [handleSimulation, feeRateOf]

/-- Claim C4 (amended): the fee rate is looked up from feeTier with
vip→0.0002, standard→0.0005, basic→0.001 and fees = orderSize * feeRate,
but an unrecognized tier is silently mapped to the default rate 0.001
rather than rejected. -/
theorem C4_fee_lookup (p : SimulationParameters) (t : TimingInputs) :
    (handleSimulation p t).fees = p.orderSize * feeRateOf p.feeTier
    ∧ feeRateOf "vip" = 0.0002
    ∧ feeRateOf "standard" = 0.0005
    ∧ feeRateOf "basic" = 0.001
    ∧ (p.feeTier ≠ "vip" → p.feeTier ≠ "standard" → p.feeTier ≠ "basic" →
        feeRateOf p.feeTier = 0.001) := by
  refine ⟨rfl, by simp [feeRateOf], by simp [feeRateOf], by simp [feeRateOf], ?_⟩
  intro h1 h2 h3
  simp [feeRateOf, h1, h2, h3]

/-- Witness for C4_fee_lookup at the unrecognized tier gold. -/
theorem C4_fee_lookup_witness :
    ("gold" ≠ "vip" ∧ "gold" ≠ "standard" ∧ "gold" ≠ "basic")
    ∧ (handleSimulation ⟨2, 10, "gold"⟩ sampleTimings).fees = 2 * feeRateOf "gold"
    ∧ feeRateOf "gold" = 0.001 :=
  ⟨⟨by decide, by decide, by decide⟩,
   (C4_fee_lookup ⟨2, 10, "gold"⟩ sampleTimings).1,
   (C4_fee_lookup ⟨2, 10, "gold"⟩ sampleTimings).2.2.2.2
     (by decide) (by decide) (by decide)⟩

/-- Claim C5: for volatility in [0,100] the split satisfies
taker = min 0.9 (volatility/100), maker = 1 - taker, maker + taker = 1,
taker is nonnegative and monotone in volatility, maker never drops below
0.1, and the endpoints volatility=0 and volatility=100 give (0,1) and
(0.9,0.1). -/
theorem C5_maker_taker_split (p : SimulationParameters) (t : TimingInputs)
    (h0 : 0 ≤ p.volatility) (h1 : p.volatility ≤ 100) :
    (handleSimulation p t).makerTakerProportion.taker = min 0.9 (p.volatility / 100)
    ∧ (handleSimulation p t).makerTakerProportion.maker
        = 1 - (handleSimulation p t).makerTakerProportion.taker
    ∧ (handleSimulation p t).makerTakerProportion.maker
        + (handleSimulation p t).makerTakerProportion.taker = 1
    ∧ 0 ≤ (handleSimulation p t).makerTakerProportion.taker
    ∧ 0.1 ≤ (handleSimulation p t).makerTakerProportion.maker
    ∧ (∀ (q : SimulationParameters) (u : TimingInputs), p.volatility ≤ q.volatility →
        (handleSimulation p t).makerTakerProportion.taker
          ≤ (handleSimulation q u).makerTakerProportion.taker)
    ∧ (handleSimulation ⟨p.orderSize, 0, p.feeTier⟩ t).makerTakerProportion.taker = 0
    ∧ (handleSimulation ⟨p.orderSize, 0, p.feeTier⟩ t).makerTakerProportion.maker = 1
    ∧ (handleSimulation ⟨p.orderSize, 100, p.feeTier⟩ t).makerTakerProportion.taker = 0.9
    ∧ (handleSimulation ⟨p.orderSize, 100, p.feeTier⟩ t).makerTakerProportion.maker
        = 0.1 := by
  have htaker : (handleSimulation p t).makerTakerProportion.taker
      = min 0.9 (p.volatility / 100) := rfl
  have hmaker : (handleSimulation p t).makerTakerProportion.maker
      = 1 - min 0.9 (p.volatility / 100) := rfl
  refine ⟨htaker, ?_, ?_, ?_, ?_, ?_, ?_, ?_, ?_, ?_⟩
  · rw [hmaker, htaker]
  · rw [hmaker, htaker]; ring
  · rw [htaker]
    exact le_min (by norm_num) (by positivity)
  · rw [hmaker]
    have hle := min_le_left (0.9 : ℚ) (p.volatility / 100)
    have h09 : (0.9 : ℚ) = 9 / 10 := by norm_num
    have h01 : (0.1 : ℚ) = 1 / 10 := by norm_num
    rw [h01]; rw [h09] at hle; linarith
  · intro q u hq
    show min (0.9 : ℚ) (p.volatility / 100) ≤ min 0.9 (q.volatility / 100)
    exact min_le_min le_rfl (by linarith)
  · show min (0.9 : ℚ) ((0 : ℚ) / 100) = 0
    norm_num
  · show 1 - min (0.9 : ℚ) ((0 : ℚ) / 100) = 1
    norm_num
  · show min (0.9 : ℚ) ((100 : ℚ) / 100) = 0.9
    norm_num
  · show 1 - min (0.9 : ℚ) ((100 : ℚ) / 100) = 0.1
    norm_num

/-- Witness for C5_maker_taker_split at volatility 50. -/
theorem C5_maker_taker_split_witness :
    ((0 : ℚ) ≤ 50 ∧ (50 : ℚ) ≤ 100)
    ∧ (handleSimulation ⟨1, 50, "standard"⟩ sampleTimings).makerTakerProportion.taker
        = min 0.9 ((50 : ℚ) / 100) :=
  ⟨⟨by norm_num, by norm_num⟩,
   (C5_maker_taker_split ⟨1, 50, "standard"⟩ sampleTimings
     (by norm_num) (by norm_num)).1⟩

/-- Claim C6: slippage = orderSize * volatility / 10000 and
marketImpact = orderSize * volatility / 5000, so market impact is exactly
double the slippage, and both are linear (homogeneous and additive) in
orderSize and in volatility. -/
theorem C6_slippage_impact_linear (p : SimulationParameters) (t : TimingInputs) :
    (handleSimulation p t).slippage = p.orderSize * p.volatility / 10000
    ∧ (handleSimulation p t).marketImpact = p.orderSize * p.volatility / 5000
    ∧ (handleSimulation p t).marketImpact = 2 * (handleSimulation p t).slippage
    ∧ (∀ c : ℚ,
        (handleSimulation ⟨c * p.orderSize, p.volatility, p.feeTier⟩ t).slippage
          = c * (handleSimulation p t).slippage
        ∧ (handleSimulation ⟨p.orderSize, c * p.volatility, p.feeTier⟩ t).slippage
          = c * (handleSimulation p t).slippage
        ∧ (handleSimulation ⟨c * p.orderSize, p.volatility, p.feeTier⟩ t).marketImpact
          = c * (handleSimulation p t).marketImpact
        ∧ (handleSimulation ⟨p.orderSize, c * p.volatility, p.feeTier⟩ t).marketImpact
          = c * (handleSimulation p t).marketImpact)
    ∧ (∀ a b : ℚ,
        (handleSimulation ⟨a + b, p.volatility, p.feeTier⟩ t).slippage
          = (handleSimulation ⟨a, p.volatility, p.feeTier⟩ t).slippage
            + (handleSimulation ⟨b, p.volatility, p.feeTier⟩ t).slippage
        ∧ (handleSimulation ⟨a + b, p.volatility, p.feeTier⟩ t).marketImpact
          = (handleSimulation ⟨a, p.volatility, p.feeTier⟩ t).marketImpact
            + (handleSimulation ⟨b, p.volatility, p.feeTier⟩ t).marketImpact) := by
  simp only [handleSimulation]
  refine ⟨trivial, trivial, by ring, fun c => ⟨by ring, by ring, by ring, by ring⟩,
    fun a b => ⟨by ring, by ring⟩⟩

/-- Claim C7 counterexample: on a book with an empty bid side and one ask
at price 100, calculateSpread still returns a numeric spread computed from
the default bid price 0 (absolute = 100, percentage = 0) instead of
reporting the spread unavailable. -/
theorem C7_spread_default_counterexample :
    calculateSpread { bids := [], asks := [⟨100, 1, 0, 0⟩], timestamp := 0 }
        = { absolute := 100, percentage := 0 }
    ∧ getFirstBidPrice { bids := [], asks := [⟨100, 1, 0, 0⟩], timestamp := 0 } = 0 := by
  constructor
  · simp [calculateSpread, getFirstAskPrice, getFirstBidPrice]
  · rfl

/-- Claim C7 (amended): with both sides non-empty the spread is
bestAsk.price - bestBid.price with the guarded percentage formula; with an
empty side the best price on that side defaults to 0 and the spread is
still computed from the defaults rather than reported unavailable. -/
theorem C7_spread (b a : OrderbookEntry) (bs as : List OrderbookEntry)
    (ts : ℤ) (d : OrderbookData) :
    (calculateSpread { bids := b :: bs, asks := a :: as, timestamp := ts }).absolute
        = a.price - b.price
    ∧ (calculateSpread { bids := b :: bs, asks := a :: as, timestamp := ts }).percentage
        = (if b.price ≠ 0 then (a.price - b.price) / b.price * 100 else 0)
    ∧ (d.bids = [] →
        (calculateSpread d).absolute = getFirstAskPrice d - 0
        ∧ (calculateSpread d).percentage = 0)
    ∧ (d.asks = [] →
        (calculateSpread d).absolute = 0 - getFirstBidPrice d) := by
  refine ⟨rfl, rfl, ?_, ?_⟩
  · intro h
    obtain ⟨bids, asks, dts⟩ := d
    simp only at h
    subst h
    exact ⟨rfl, by simp [calculateSpread, getFirstBidPrice]⟩
  · intro h
    obtain ⟨bids, asks, dts⟩ := d
    simp only at h
    subst h
    rfl

/-- Witness for C7_spread: a two-sided book and an empty-bid book. -/
theorem C7_spread_witness :
    (calculateSpread { bids := [⟨50, 1, 0, 0⟩], asks := [⟨60, 2, 0, 0⟩],
                       timestamp := 0 }).absolute = (60 : ℚ) - 50
    ∧ ({ bids := [], asks := [⟨100, 1, 0, 0⟩], timestamp := 0 } : OrderbookData).bids = []
    ∧ (calculateSpread { bids := [], asks := [⟨100, 1, 0, 0⟩], timestamp := 0 }).absolute
        = getFirstAskPrice { bids := [], asks := [⟨100, 1, 0, 0⟩], timestamp := 0 } - 0 :=
  ⟨(C7_spread ⟨50, 1, 0, 0⟩ ⟨60, 2, 0, 0⟩ [] [] 0
      ⟨[], [⟨100, 1, 0, 0⟩], 0⟩).1,
   rfl,
   ((C7_spread ⟨50, 1, 0, 0⟩ ⟨60, 2, 0, 0⟩ [] [] 0
      ⟨[], [⟨100, 1, 0, 0⟩], 0⟩).2.2.1 rfl).1⟩

/-- Claim C8 counterexample: the unrecognized tier premium passes
validation (only an empty feeTier is rejected), so no distinct error is
raised for it and a cost estimate is produced with the default rate. -/
theorem C8_unrecognized_tier_counterexample :
    handleSubmit { orderSize := some 2, volatility := 30, feeTier := "premium" }
        = .submitted { orderSize := 2, volatility := 30, feeTier := "premium" }
    ∧ (handleSimulation ⟨2, 30, "premium"⟩ sampleTimings).fees = 0.002 := by
  constructor
  · simp [handleSubmit]; norm_num
  · simp [handleSimulation, feeRateOf]; norm_num

/-- Claim C8 (amended): non-positive or unparsable order size and
out-of-range volatility are each rejected with their own distinct message
before any cost computation, and an empty feeTier is rejected with a third
message; a non-empty unrecognized feeTier, however, passes validation and
is submitted. -/
theorem C8_validation (f : FormState) :
    (f.orderSize = none →
        handleSubmit f = .rejected "Order size must be a positive number")
    ∧ (∀ q : ℚ, f.orderSize = some q → q ≤ 0 →
        handleSubmit f = .rejected "Order size must be a positive number")
    ∧ (∀ q : ℚ, f.orderSize = some q → 0 < q →
        (f.volatility < 0 ∨ 100 < f.volatility) →
        handleSubmit f = .rejected "Volatility must be between 0 and 100")
    ∧ (∀ q : ℚ, f.orderSize = some q → 0 < q →
        0 ≤ f.volatility → f.volatility ≤ 100 → f.feeTier = "" →
        handleSubmit f = .rejected "Please select a fee tier")
    ∧ (∀ q : ℚ, f.orderSize = some q → 0 < q →
        0 ≤ f.volatility → f.volatility ≤ 100 → f.feeTier ≠ "" →
        handleSubmit f = .submitted ⟨q, f.volatility, f.feeTier⟩)
    ∧ ("Order size must be a positive number" ≠ "Volatility must be between 0 and 100"
       ∧ "Order size must be a positive number" ≠ "Please select a fee tier"
       ∧ "Volatility must be between 0 and 100" ≠ "Please select a fee tier") := by
  obtain ⟨os, v, ft⟩ := f
  refine ⟨?_, ?_, ?_, ?_, ?_, by decide, by decide, by decide⟩
  · intro h
    simp only at h
    subst h
    rfl
  · intro q hq hle
    simp only at hq
    subst hq
    simp [handleSubmit, hle]
  · intro q hq hpos hv
    simp only at hq
    subst hq
    simp [handleSubmit, not_le.mpr hpos, hv]
  · intro q hq hpos hv0 hv1 hft
    simp only at hq hft
    subst hq
    subst hft
    simp [handleSubmit, not_le.mpr hpos, not_lt.mpr hv0, not_lt.mpr hv1]
  · intro q hq hpos hv0 hv1 hft
    simp only at hq hft
    subst hq
    simp [handleSubmit, not_le.mpr hpos, not_lt.mpr hv0, not_lt.mpr hv1, hft]

/-- Witness for C8_validation: a negative order size is rejected with the
order-size message. -/
theorem C8_validation_witness :
    ((-1 : ℚ) ≤ 0)
    ∧ handleSubmit { orderSize := some (-1), volatility := 50, feeTier := "standard" }
        = .rejected "Order size must be a positive number" :=
  ⟨by norm_num,
   (C8_validation ⟨some (-1), 50, "standard"⟩).2.1 (-1) rfl (by norm_num)⟩

/-- Claim C2: aggregation returns at most maxDepth entries per side, the
entries carry the sizes of the first maxDepth raw entries, and the
cumulative totals match the manual truncate-then-sum computation: the
first total recurrence holds index by index, the totals are non-decreasing
for non-negative sizes, and the last total equals the sum of the truncated
sizes. -/
theorem C2_truncation_cumulative (d : OrderbookData) (k : ℕ)
    (hb : ∀ e ∈ d.bids, 0 ≤ e.size) (ha : ∀ e ∈ d.asks, 0 ≤ e.size) :
    ((aggregate d k).bids.length ≤ k ∧ (aggregate d k).asks.length ≤ k)
    ∧ ((aggregate d k).bids.map OrderbookEntry.size
          = (d.bids.take k).map OrderbookEntry.size
       ∧ (aggregate d k).asks.map OrderbookEntry.size
          = (d.asks.take k).map OrderbookEntry.size)
    ∧ ((aggregate d k).bids.map OrderbookEntry.total
          = specCumulative 0 ((d.bids.take k).map OrderbookEntry.size)
       ∧ (aggregate d k).asks.map OrderbookEntry.total
          = specCumulative 0 ((d.asks.take k).map OrderbookEntry.size))
    ∧ (∀ i : ℕ, i + 1 < (aggregate d k).bids.length →
        ((aggregate d k).bids.map OrderbookEntry.total).getD (i + 1) 0
          = ((aggregate d k).bids.map OrderbookEntry.total).getD i 0
            + ((d.bids.take k).map OrderbookEntry.size).getD (i + 1) 0)
    ∧ (∀ i : ℕ, i + 1 < (aggregate d k).asks.length →
        ((aggregate d k).asks.map OrderbookEntry.total).getD (i + 1) 0
          = ((aggregate d k).asks.map OrderbookEntry.total).getD i 0
            + ((d.asks.take k).map OrderbookEntry.size).getD (i + 1) 0)
    ∧ (∀ i : ℕ, i + 1 < (aggregate d k).bids.length →
        ((aggregate d k).bids.map OrderbookEntry.total).getD i 0
          ≤ ((aggregate d k).bids.map OrderbookEntry.total).getD (i + 1) 0)
    ∧ (∀ i : ℕ, i + 1 < (aggregate d k).asks.length →
        ((aggregate d k).asks.map OrderbookEntry.total).getD i 0
          ≤ ((aggregate d k).asks.map OrderbookEntry.total).getD (i + 1) 0)
    ∧ ((((aggregate d k).bids.map OrderbookEntry.total).getLast?).getD 0
          = ((d.bids.take k).map OrderbookEntry.size).sum
       ∧ (((aggregate d k).asks.map OrderbookEntry.total).getLast?).getD 0
          = ((d.asks.take k).map OrderbookEntry.size).sum) := by
  obtain ⟨b1, b2, b3, b4, b5, b6⟩ :=
    processedSide_facts d.bids k (aggregateMaxTotal d k) hb
  obtain ⟨a1, a2, a3, a4, a5, a6⟩ :=
    processedSide_facts d.asks k (aggregateMaxTotal d k) ha
  exact ⟨⟨b1, a1⟩, ⟨b3, a3⟩, ⟨b2, a2⟩, b4, a4, b5, a5, b6, a6⟩

/-- Witness for C2_truncation_cumulative on a concrete two-bid, one-ask
book. -/
theorem C2_truncation_cumulative_witness :
    (∀ e ∈ [(⟨100, 2, 0, 0⟩ : OrderbookEntry), ⟨99, 3, 0, 0⟩], (0 : ℚ) ≤ e.size)
    ∧ (∀ e ∈ [(⟨101, 1, 0, 0⟩ : OrderbookEntry)], (0 : ℚ) ≤ e.size)
    ∧ (aggregate ⟨[⟨100, 2, 0, 0⟩, ⟨99, 3, 0, 0⟩], [⟨101, 1, 0, 0⟩], 0⟩ 10).bids.length
        ≤ 10 :=
  ⟨by norm_num, by norm_num,
   ((C2_truncation_cumulative ⟨[⟨100, 2, 0, 0⟩, ⟨99, 3, 0, 0⟩], [⟨101, 1, 0, 0⟩], 0⟩ 10
      (by norm_num) (by norm_num)).1).1⟩

/-- Claim C3: with non-negative sizes every aggregated depth percentage is
in [0,100]; when the shared normalization constant is positive some entry
of maximal cumulative total has percentage exactly 100; when it is zero
every percentage is 0; and an empty raw side aggregates to an empty
side. -/
theorem C3_depth_percent (d : OrderbookData) (k : ℕ)
    (hb : ∀ e ∈ d.bids, 0 ≤ e.size) (ha : ∀ e ∈ d.asks, 0 ≤ e.size) :
    (∀ e ∈ (aggregate d k).bids ++ (aggregate d k).asks,
        0 ≤ e.percentage ∧ e.percentage ≤ 100)
    ∧ (0 < aggregateMaxTotal d k →
        ∃ e ∈ (aggregate d k).bids ++ (aggregate d k).asks,
          (∀ f ∈ (aggregate d k).bids ++ (aggregate d k).asks, f.total ≤ e.total)
          ∧ e.percentage = 100)
    ∧ (aggregateMaxTotal d k = 0 →
        ∀ e ∈ (aggregate d k).bids ++ (aggregate d k).asks, e.percentage = 0)
    ∧ (d.bids = [] → (aggregate d k).bids = [])
    ∧ (d.asks = [] → (aggregate d k).asks = []) := by
  have hbk : ∀ e ∈ d.bids.take k, 0 ≤ e.size :=
    fun e he => hb e (List.take_subset _ _ he)
  have hak : ∀ e ∈ d.asks.take k, 0 ≤ e.size :=
    fun e he => ha e (List.take_subset _ _ he)
  have hbb := processData_total_le_lastTotal (d.bids.take k) hbk
  have haa := processData_total_le_lastTotal (d.asks.take k) hak
  have ebids : (aggregate d k).bids
      = calculatePercentages (aggregateMaxTotal d k)
          (processData (d.bids.take k)) := rfl
  have easks : (aggregate d k).asks
      = calculatePercentages (aggregateMaxTotal d k)
          (processData (d.asks.take k)) := rfl
  have hmb : lastTotal (processData (d.bids.take k)) ≤ aggregateMaxTotal d k :=
    le_max_left _ _
  have hma : lastTotal (processData (d.asks.take k)) ≤ aggregateMaxTotal d k :=
    le_max_right _ _
  refine ⟨?_, ?_, ?_, ?_, ?_⟩
  · intro e he
    rw [ebids, easks] at he
    rcases List.mem_append.mp he with hmem | hmem
    · obtain ⟨e₀, he₀, rfl⟩ := List.mem_map.mp hmem
      exact percentage_bounds _ _ (hbb e₀ he₀).1 (le_trans (hbb e₀ he₀).2 hmb)
    · obtain ⟨e₀, he₀, rfl⟩ := List.mem_map.mp hmem
      exact percentage_bounds _ _ (haa e₀ he₀).1 (le_trans (haa e₀ he₀).2 hma)
  · intro hm0
    have hmax : aggregateMaxTotal d k = lastTotal (processData (d.bids.take k))
        ∨ aggregateMaxTotal d k = lastTotal (processData (d.asks.take k)) :=
      max_choice _ _
    rcases hmax with hside | hside
    · have hne : processData (d.bids.take k) ≠ [] := by
        intro hcontra
        rw [hcontra] at hside
        simp [lastTotal] at hside
        rw [hside] at hm0
        exact lt_irrefl 0 hm0
      obtain ⟨e₀, he₀, het⟩ := exists_mem_total_eq_lastTotal _ hne
      have hetm : e₀.total = aggregateMaxTotal d k := by rw [het, hside]
      refine ⟨{ e₀ with percentage := if 0 < aggregateMaxTotal d k then
          e₀.total / aggregateMaxTotal d k * 100 else 0 }, ?_, ?_, ?_⟩
      · rw [ebids, easks]
        exact List.mem_append_left _ (List.mem_map.mpr ⟨e₀, he₀, rfl⟩)
      · intro f hf
        rw [ebids, easks] at hf
        rcases List.mem_append.mp hf with hfm | hfm
        · obtain ⟨f₀, hf₀, rfl⟩ := List.mem_map.mp hfm
          show f₀.total ≤ e₀.total
          calc f₀.total ≤ lastTotal (processData (d.bids.take k)) := (hbb f₀ hf₀).2
            _ ≤ aggregateMaxTotal d k := hmb
            _ = e₀.total := hetm.symm
        · obtain ⟨f₀, hf₀, rfl⟩ := List.mem_map.mp hfm
          show f₀.total ≤ e₀.total
          calc f₀.total ≤ lastTotal (processData (d.asks.take k)) := (haa f₀ hf₀).2
            _ ≤ aggregateMaxTotal d k := hma
            _ = e₀.total := hetm.symm
      · show (if 0 < aggregateMaxTotal d k then
            e₀.total / aggregateMaxTotal d k * 100 else 0) = 100
        rw [if_pos hm0, hetm, div_self (ne_of_gt hm0)]
        norm_num
    · have hne : processData (d.asks.take k) ≠ [] := by
        intro hcontra
        rw [hcontra] at hside
        simp [lastTotal] at hside
        rw [hside] at hm0
        exact lt_irrefl 0 hm0
      obtain ⟨e₀, he₀, het⟩ := exists_mem_total_eq_lastTotal _ hne
      have hetm : e₀.total = aggregateMaxTotal d k := by rw [het, hside]
      refine ⟨{ e₀ with percentage := if 0 < aggregateMaxTotal d k then
          e₀.total / aggregateMaxTotal d k * 100 else 0 }, ?_, ?_, ?_⟩
      · rw [ebids, easks]
        exact List.mem_append_right _ (List.mem_map.mpr ⟨e₀, he₀, rfl⟩)
      · intro f hf
        rw [ebids, easks] at hf
        rcases List.mem_append.mp hf with hfm | hfm
        · obtain ⟨f₀, hf₀, rfl⟩ := List.mem_map.mp hfm
          show f₀.total ≤ e₀.total
          calc f₀.total ≤ lastTotal (processData (d.bids.take k)) := (hbb f₀ hf₀).2
            _ ≤ aggregateMaxTotal d k := hmb
            _ = e₀.total := hetm.symm
        · obtain ⟨f₀, hf₀, rfl⟩ := List.mem_map.mp hfm
          show f₀.total ≤ e₀.total
          calc f₀.total ≤ lastTotal (processData (d.asks.take k)) := (haa f₀ hf₀).2
            _ ≤ aggregateMaxTotal d k := hma
            _ = e₀.total := hetm.symm
      · show (if 0 < aggregateMaxTotal d k then
            e₀.total / aggregateMaxTotal d k * 100 else 0) = 100
        rw [if_pos hm0, hetm, div_self (ne_of_gt hm0)]
        norm_num
  · intro h0 e he
    rw [ebids, easks] at he
    rcases List.mem_append.mp he with hmem | hmem
    · obtain ⟨e₀, he₀, rfl⟩ := List.mem_map.mp hmem
      show (if 0 < aggregateMaxTotal d k then
          e₀.total / aggregateMaxTotal d k * 100 else 0) = 0
      rw [h0]
      norm_num
    · obtain ⟨e₀, he₀, rfl⟩ := List.mem_map.mp hmem
      show (if 0 < aggregateMaxTotal d k then
          e₀.total / aggregateMaxTotal d k * 100 else 0) = 0
      rw [h0]
      norm_num
  · intro h
    rw [ebids, h]
    simp [processData, processDataAux, calculatePercentages]
  · intro h
    rw [easks, h]
    simp [processData, processDataAux, calculatePercentages]

/-- Witness for C3_depth_percent on a concrete one-bid, one-ask book. -/
theorem C3_depth_percent_witness :
    (∀ e ∈ [(⟨100, 2, 0, 0⟩ : OrderbookEntry)], (0 : ℚ) ≤ e.size)
    ∧ (∀ e ∈ [(⟨101, 1, 0, 0⟩ : OrderbookEntry)], (0 : ℚ) ≤ e.size)
    ∧ (∀ e ∈ (aggregate ⟨[⟨100, 2, 0, 0⟩], [⟨101, 1, 0, 0⟩], 0⟩ 10).bids
          ++ (aggregate ⟨[⟨100, 2, 0, 0⟩], [⟨101, 1, 0, 0⟩], 0⟩ 10).asks,
        0 ≤ e.percentage ∧ e.percentage ≤ 100) :=
  ⟨by norm_num, by norm_num,
   (C3_depth_percent ⟨[⟨100, 2, 0, 0⟩], [⟨101, 1, 0, 0⟩], 0⟩ 10
      (by norm_num) (by norm_num)).1⟩

/-- Claim C10: aggregation is idempotent on its own output entries, because
the per-side processing reads only each entry price and size and
overwrites the derived total and percentage fields. -/
theorem C10_aggregate_idempotent (d : OrderbookData) (k : ℕ) :
    (aggregate (aggregate d k) k).bids = (aggregate d k).bids
    ∧ (aggregate (aggregate d k) k).asks = (aggregate d k).asks := by
  have ebids : (aggregate d k).bids
      = calculatePercentages (aggregateMaxTotal d k)
          (processData (d.bids.take k)) := rfl
  have easks : (aggregate d k).asks
      = calculatePercentages (aggregateMaxTotal d k)
          (processData (d.asks.take k)) := rfl
  have hlb : (aggregate d k).bids.length ≤ k := by
    rw [ebids, calculatePercentages_length, processData, processDataAux_length,
      List.length_take]
    exact min_le_left _ _
  have hla : (aggregate d k).asks.length ≤ k := by
    rw [easks, calculatePercentages_length, processData, processDataAux_length,
      List.length_take]
    exact min_le_left _ _
  have htb : (aggregate d k).bids.take k = (aggregate d k).bids :=
    List.take_of_length_le hlb
  have hta : (aggregate d k).asks.take k = (aggregate d k).asks :=
    List.take_of_length_le hla
  have hpb : processData ((aggregate d k).bids) = processData (d.bids.take k) := by
    rw [processData, processData]
    apply processDataAux_congr
    · rw [ebids, calculatePercentages_map_price, processData, processDataAux_map_price]
    · rw [ebids, calculatePercentages_map_size, processData, processDataAux_map_size]
  have hpa : processData ((aggregate d k).asks) = processData (d.asks.take k) := by
    rw [processData, processData]
    apply processDataAux_congr
    · rw [easks, calculatePercentages_map_price, processData, processDataAux_map_price]
    · rw [easks, calculatePercentages_map_size, processData, processDataAux_map_size]
  have hm : aggregateMaxTotal (aggregate d k) k = aggregateMaxTotal d k := by
    simp only [aggregateMaxTotal]
    rw [htb, hta, hpb, hpa]
  constructor
  · show calculatePercentages (aggregateMaxTotal (aggregate d k) k)
        (processData ((aggregate d k).bids.take k)) = (aggregate d k).bids
    rw [hm, htb, hpb, ebids]
  · show calculatePercentages (aggregateMaxTotal (aggregate d k) k)
        (processData ((aggregate d k).asks.take k)) = (aggregate d k).asks
    rw [hm, hta, hpa, easks]

/-- Claim C9: the numeric cost fields of two runs with the same parameters
but different observed timings are identical; the timing inputs flow only
into the performance metrics. -/
theorem C9_timing_independence (p : SimulationParameters) (t u : TimingInputs) :
    (handleSimulation p t).slippage = (handleSimulation p u).slippage
    ∧ (handleSimulation p t).fees = (handleSimulation p u).fees
    ∧ (handleSimulation p t).marketImpact = (handleSimulation p u).marketImpact
    ∧ (handleSimulation p t).makerTakerProportion
        = (handleSimulation p u).makerTakerProportion :=
  ⟨rfl, rfl, rfl, rfl⟩

end Trade
